import Mathlib

/-!
Shallow embedding of the mcuboot TLV iterator (boot/bootutil/src/tlv.c) and
verification of the specified properties.

Modelling conventions:
  * Flash reads go through the collaborator macro LOAD_IMAGE_DATA; every read
    performed by tlv.c loads a 4-byte record header consisting of two
    little-endian uint16 fields (struct image_tlv_info: it_magic / it_tlv_tot,
    struct image_tlv: it_type / it_len share this layout).  We therefore model
    the flash area as a partial function from byte offset to the decoded pair
    of 16-bit fields; a `none` result is a failed (out-of-bounds / I/O) read.
  * C pointers that may be NULL are modelled as `Option`.
  * Byte offsets are modelled as `Nat`.  All offsets reachable on real
    hardware fit a uint32 comfortably: reads through a bounded flash area fail
    long before any uint32 addition could wrap, so unbounded naturals are an
    adequate model of the offset arithmetic.
  * The return codes 0 / 1 / -1 of bootutil_tlv_iter_next are rendered as the
    inductive NextResult (found / exhausted / error).
-/

/-- Magic value of the plain (general-area) TLV info record, a collaborator
constant from image.h. -/
def IMAGE_TLV_INFO_MAGIC : Nat := 0x6907

/-- Magic value of the protected-area TLV info record, from image.h. -/
def IMAGE_TLV_PROT_INFO_MAGIC : Nat := 0x6908

/-- Wildcard type filter accepted by the iterator, from image.h. -/
def IMAGE_TLV_ANY : Nat := 0xffff

/-- Size in bytes of struct image_tlv_info (two uint16 fields). -/
def tlvInfoSize : Nat := 4

/-- Size in bytes of struct image_tlv (two uint16 fields). -/
def tlvHdrSize : Nat := 4

/-- The borrowed flash-area accessor: a partial map from byte offset to the
two decoded 16-bit fields of the 4-byte record header stored there. -/
abbrev FlashArea : Type := Nat → Option (Nat × Nat)

/-- One LOAD_IMAGE_DATA call reading a 4-byte, two-uint16 record header at
offset `off`.  The `% 65536` reduction records that the C struct fields are
uint16_t. -/
def loadPair (f : FlashArea) (off : Nat) : Option (Nat × Nat) :=
  (f off).map (fun p => (p.1 % 65536, p.2 % 65536))

/-- The fields of struct image_header that tlv.c reads.  `boot_tlv_off`
models the collaborator macro BOOT_TLV_OFF(hdr): the byte offset at which the
image trailer starts. -/
structure image_header where
  ih_protect_tlv_size : Nat
  boot_tlv_off : Nat

/-- struct image_tlv_iter.  The `hdr` and `fap` members are borrowed pointers
that may be NULL, hence `Option`. -/
structure image_tlv_iter where
  hdr : Option image_header
  fap : Option FlashArea
  type : Nat
  prot : Bool
  prot_end : Nat
  tlv_end : Nat
  tlv_off : Nat

/-- Result of bootutil_tlv_iter_next: return code 0 with the out-parameters
off / len / type is `found`, return code 1 is `exhausted`, -1 is `error`. -/
inductive NextResult where
  | found (off len ty : Nat)
  | exhausted
  | error
deriving DecidableEq

/-- Lines 61-76 of bootutil_tlv_iter_begin: read the trailer info record at
`off_`; if its magic is the protected-info magic, require that its total
length equal the header's declared protected size and re-read the info record
just past the protected area; otherwise require the declared protected size
to be zero.  The result is the value of the local variable `info` in scope at
line 78 (`none` models an early `return -1`). -/
def beginInfo (h : image_header) (f : FlashArea) (off_ : Nat) : Option (Nat × Nat) :=
  match loadPair f off_ with
  | none => none
  | some info =>
    if info.1 = IMAGE_TLV_PROT_INFO_MAGIC then
      if h.ih_protect_tlv_size ≠ info.2 then none
      else loadPair f (off_ + info.2)
    else if h.ih_protect_tlv_size ≠ 0 then none
    else some info

/-- bootutil_tlv_iter_begin (tlv.c lines 42-91).  Returns the C return code
together with the contents of the caller's iterator struct after the call
(the struct is written only on the success path, lines 82-89). -/
def bootutil_tlv_iter_begin (it : Option image_tlv_iter) (hdr : Option image_header)
    (fap : Option FlashArea) (type : Nat) (prot : Bool) :
    Int × Option image_tlv_iter :=
  match it, hdr, fap with
  | some _, some h, some f =>
    match beginInfo h f h.boot_tlv_off with
    | none => (-1, it)
    | some info =>
      if info.1 ≠ IMAGE_TLV_INFO_MAGIC then (-1, it)
      else
        (0, some {
          hdr := some h
          fap := some f
          type := type
          prot := prot
          prot_end := h.boot_tlv_off + h.ih_protect_tlv_size
          tlv_end := h.boot_tlv_off + h.ih_protect_tlv_size + info.2
          tlv_off := h.boot_tlv_off + tlvInfoSize })
  | _, _, _ => (-1, it)

/-- Line 120-122 of bootutil_tlv_iter_next: when the image declares a
non-zero protected size and the cursor sits exactly at the protected-area
end, skip the plain info record header. -/
def tlvSkipInfo (h : image_header) (pe tlv_off : Nat) : Nat :=
  if 0 < h.ih_protect_tlv_size ∧ tlv_off = pe then tlv_off + tlvInfoSize else tlv_off

/-- The while loop of bootutil_tlv_iter_next (lines 119-150), with an
explicit structural fuel argument.  Returns the result, the final value of
`it->tlv_off`, and the number of LOAD_IMAGE_DATA calls performed.  Each loop
iteration that continues advances the cursor by at least `tlvHdrSize`, so the
fuel `tlv_end - tlv_off + 1` supplied by `iterNextLoop` is never exhausted
(lemma `iterNextLoopF_fuel_irrel`); the fuel-0 branch is unreachable there. -/
def iterNextLoopF (h : image_header) (f : FlashArea) (ty : Nat) (prot : Bool)
    (pe te : Nat) : Nat → Nat → NextResult × Nat × Nat
  | 0, tlv_off => (NextResult.error, tlv_off, 0)
  | fuel + 1, tlv_off =>
    if tlv_off < te then
      let off1 := tlvSkipInfo h pe tlv_off
      match loadPair f off1 with
      | none => (NextResult.error, off1, 1)
      | some tlv =>
        if prot ∧ pe ≤ off1 then
          (NextResult.exhausted, off1, 1)
        else if ty = IMAGE_TLV_ANY ∨ tlv.1 = ty then
          (NextResult.found (off1 + tlvHdrSize) tlv.2 tlv.1,
           off1 + tlvHdrSize + tlv.2, 1)
        else
          let r := iterNextLoopF h f ty prot pe te fuel (off1 + tlvHdrSize + tlv.2)
          (r.1, r.2.1, r.2.2 + 1)
    else (NextResult.exhausted, tlv_off, 0)

/-- The while loop of bootutil_tlv_iter_next with its canonical (always
sufficient) fuel. -/
def iterNextLoop (h : image_header) (f : FlashArea) (ty : Nat) (prot : Bool)
    (pe te tlv_off : Nat) : NextResult × Nat × Nat :=
  iterNextLoopF h f ty prot pe te (te - tlv_off + 1) tlv_off

/-- bootutil_tlv_iter_next (tlv.c lines 105-154).  Returns the result and the
iterator struct after the call; only `tlv_off` is mutated by the loop. -/
def bootutil_tlv_iter_next (it : Option image_tlv_iter) :
    NextResult × Option image_tlv_iter :=
  match it with
  | none => (NextResult.error, none)
  | some i =>
    match i.hdr, i.fap with
    | some h, some f =>
      let r := iterNextLoop h f i.type i.prot i.prot_end i.tlv_end i.tlv_off
      (r.1, some { i with tlv_off := r.2.1 })
    | _, _ => (NextResult.error, some i)

/-- bootutil_tlv_iter_is_prot (tlv.c lines 166-174): -1 on an invalid
iterator, otherwise the C boolean `off < it->prot_end` as 1 / 0. -/
def bootutil_tlv_iter_is_prot (it : Option image_tlv_iter) (off : Nat) : Int :=
  match it with
  | none => -1
  | some i =>
    match i.hdr, i.fap with
    | some _, some _ => if off < i.prot_end then 1 else 0
    | _, _ => -1

/-- An arbitrary not-yet-initialized iterator struct, as a caller would hold
before bootutil_tlv_iter_begin writes it. -/
def it0c : image_tlv_iter :=
  { hdr := none, fap := none, type := 0, prot := false
    prot_end := 0, tlv_end := 0, tlv_off := 0 }

/-- Image header of the spec's protected scenario: trailer at offset 0,
declared protected size 8. -/
def hdrA : image_header := { ih_protect_tlv_size := 8, boot_tlv_off := 0 }

/-- Flash content of the spec's protected scenario:
[protected-info(total 8)][TLV(type 2, len 0)][plain-info(total 4)]. -/
def flashA : FlashArea := fun o =>
  if o = 0 then some (IMAGE_TLV_PROT_INFO_MAGIC, 8)
  else if o = 4 then some (2, 0)
  else if o = 8 then some (IMAGE_TLV_INFO_MAGIC, 4)
  else none

/-- The iterator state produced by a successful begin on the protected
scenario with the wildcard filter and require-protected set. -/
def itA : image_tlv_iter :=
  { hdr := some hdrA, fap := some flashA, type := IMAGE_TLV_ANY, prot := true
    prot_end := 8, tlv_end := 12, tlv_off := 4 }

example : bootutil_tlv_iter_begin (some it0c) (some hdrA) (some flashA) IMAGE_TLV_ANY true
    = (0, some itA) := rfl
example : (bootutil_tlv_iter_next (some itA)).1 = NextResult.found 8 0 2 := by decide
example : bootutil_tlv_iter_is_prot (some itA) 8 = 0 := by decide

/-- Header of the degenerate protected scenario: declared protected size 4,
so the protected area consists of the protected info record alone. -/
def hdrB : image_header := { ih_protect_tlv_size := 4, boot_tlv_off := 0 }

/-- Flash content whose general area is unreadable: protected-info(total 4)
at 0, plain-info(total 8) at 4, and every other read fails. -/
def flashB : FlashArea := fun o =>
  if o = 0 then some (IMAGE_TLV_PROT_INFO_MAGIC, 4)
  else if o = 4 then some (IMAGE_TLV_INFO_MAGIC, 8)
  else none

/-- The iterator produced by begin on flashB with the wildcard filter and
require-protected set. -/
def itB2 : image_tlv_iter :=
  { hdr := some hdrB, fap := some flashB, type := IMAGE_TLV_ANY, prot := true
    prot_end := 4, tlv_end := 12, tlv_off := 4 }

/-- The iterator produced by begin on flashB with filter 5 and
require-protected clear. -/
def itB6 : image_tlv_iter :=
  { hdr := some hdrB, fap := some flashB, type := 5, prot := false
    prot_end := 4, tlv_end := 12, tlv_off := 4 }

example : bootutil_tlv_iter_begin (some it0c) (some hdrB) (some flashB) IMAGE_TLV_ANY true
    = (0, some itB2) := rfl
example : (bootutil_tlv_iter_next (some itB2)).1 = NextResult.error := by decide
example : bootutil_tlv_iter_next (some itB6) = (NextResult.error, some { itB6 with tlv_off := 8 }) := rfl

/-- Header with no protected area, trailer at offset 0. -/
def hdrC : image_header := { ih_protect_tlv_size := 0, boot_tlv_off := 0 }

/-- Flash whose first info record is protected-info with total length 0 (so
the second info read lands back on it). -/
def flashC : FlashArea := fun o =>
  if o = 0 then some (IMAGE_TLV_PROT_INFO_MAGIC, 0) else none

example : (bootutil_tlv_iter_begin (some it0c) (some hdrC) (some flashC) 0 false).1 = -1 := by decide

/-- Flash of the spec's plain scenario: [plain-info(total 12)][TLV(type 1, len 4)]. -/
def flashD : FlashArea := fun o =>
  if o = 0 then some (IMAGE_TLV_INFO_MAGIC, 12)
  else if o = 4 then some (1, 4)
  else none

/-- The iterator produced by begin on flashD with filter 1. -/
def itD : image_tlv_iter :=
  { hdr := some hdrC, fap := some flashD, type := 1, prot := false
    prot_end := 0, tlv_end := 12, tlv_off := 4 }

example : bootutil_tlv_iter_begin (some it0c) (some hdrC) (some flashD) 1 false
    = (0, some itD) := rfl
example : bootutil_tlv_iter_next (some itD) = (NextResult.found 8 4 1, some { itD with tlv_off := 12 }) := rfl
example : (bootutil_tlv_iter_next (some { itD with tlv_off := 12 })).1 = NextResult.exhausted := by decide

/-- Flash holding two type-7 records in the general area:
[plain-info(total 16)][TLV(type 7, len 0)][TLV(type 7, len 4)]. -/
def flashE : FlashArea := fun o =>
  if o = 0 then some (IMAGE_TLV_INFO_MAGIC, 16)
  else if o = 4 then some (7, 0)
  else if o = 8 then some (7, 4)
  else none

/-- The iterator produced by begin on flashE with filter 7. -/
def itE : image_tlv_iter :=
  { hdr := some hdrC, fap := some flashE, type := 7, prot := false
    prot_end := 0, tlv_end := 16, tlv_off := 4 }

example : bootutil_tlv_iter_next (some itE) = (NextResult.found 8 0 7, some { itE with tlv_off := 8 }) := rfl
example : bootutil_tlv_iter_next (some { itE with tlv_off := 8 })
    = (NextResult.found 12 4 7, some { itE with tlv_off := 16 }) := rfl

/-- Flash whose first info record carries an unrecognized magic. -/
def flashW : FlashArea := fun o =>
  if o = 0 then some (0x1234, 5)
  else if o = 5 then some (0, 0)
  else none

example : (bootutil_tlv_iter_begin (some it0c) (some hdrC) (some flashW) 0 false).1 = -1 := by decide

lemma le_tlvSkipInfo (h : image_header) (pe tlv_off : Nat) :
    tlv_off ≤ tlvSkipInfo h pe tlv_off := by
  unfold tlvSkipInfo
  split <;> omega

lemma iterNextLoopF_le_off (h : image_header) (f : FlashArea) (ty : Nat) (prot : Bool)
    (pe te : Nat) : ∀ fuel tlv_off,
    tlv_off ≤ (iterNextLoopF h f ty prot pe te fuel tlv_off).2.1 := by
  intro fuel
  induction fuel with
  | zero => intro tlv_off; simp [iterNextLoopF]
  | succ n ih =>
    intro tlv_off
    have hsk := le_tlvSkipInfo h pe tlv_off
    simp only [iterNextLoopF]
    split
    · cases hl : loadPair f (tlvSkipInfo h pe tlv_off) with
      | none => simpa using hsk
      | some tlv =>
        simp only [hl]
        split
        · simpa using hsk
        · split
          · simpa using hsk.trans (by omega)
          · have := ih (tlvSkipInfo h pe tlv_off + tlvHdrSize + tlv.2)
            simp only []
            omega
    · simp

lemma iterNextLoopF_found (h : image_header) (f : FlashArea) (ty : Nat) (prot : Bool)
    (pe te : Nat) : ∀ fuel tlv_off o l t ro n,
    iterNextLoopF h f ty prot pe te fuel tlv_off = (NextResult.found o l t, ro, n) →
    ∃ c, tlv_off ≤ c ∧ loadPair f c = some (t, l) ∧ o = c + tlvHdrSize ∧
      ro = c + tlvHdrSize + l ∧ (ty = IMAGE_TLV_ANY ∨ t = ty) ∧
      (prot = true → c < pe) := by
  intro fuel
  induction fuel with
  | zero =>
    intro tlv_off o l t ro n heq
    exact NextResult.noConfusion (congrArg Prod.fst heq)
  | succ m ih =>
    intro tlv_off o l t ro n heq
    have hsk := le_tlvSkipInfo h pe tlv_off
    simp only [iterNextLoopF] at heq
    split at heq
    · cases hl : loadPair f (tlvSkipInfo h pe tlv_off) with
      | none =>
        simp only [hl] at heq
        exact NextResult.noConfusion (congrArg Prod.fst heq)
      | some tlv =>
        simp only [hl] at heq
        split at heq
        · exact NextResult.noConfusion (congrArg Prod.fst heq)
        · rename_i hnotex
          split at heq
          · rename_i hmatch
            simp only [Prod.mk.injEq, NextResult.found.injEq] at heq
            obtain ⟨⟨ho, hlen, hty⟩, hro, -⟩ := heq
            refine ⟨tlvSkipInfo h pe tlv_off, hsk, ?_, by omega, by omega, ?_, ?_⟩
            · rw [hl, ← hty, ← hlen]
            · rcases hmatch with hany | hm
              · exact Or.inl hany
              · exact Or.inr (by omega)
            · intro hp
              rw [hp] at hnotex
              simp only [true_and] at hnotex
              omega
          · simp only [Prod.mk.injEq] at heq
            obtain ⟨h1, h2, h3⟩ := heq
            have hfull : iterNextLoopF h f ty prot pe te m
                (tlvSkipInfo h pe tlv_off + tlvHdrSize + tlv.2) =
                (NextResult.found o l t, ro,
                 (iterNextLoopF h f ty prot pe te m
                   (tlvSkipInfo h pe tlv_off + tlvHdrSize + tlv.2)).2.2) := by
              rw [← h1, ← h2]
            obtain ⟨c, hc1, hc2, hc3, hc4, hc5, hc6⟩ := ih _ o l t ro _ hfull
            exact ⟨c, by omega, hc2, hc3, hc4, hc5, hc6⟩
    · exact NextResult.noConfusion (congrArg Prod.fst heq)

lemma iterNextLoopF_reads_zero (h : image_header) (f : FlashArea) (ty : Nat) (prot : Bool)
    (pe te : Nat) (fuel tlv_off : Nat) (hte : te ≤ tlv_off) :
    (iterNextLoopF h f ty prot pe te fuel tlv_off).2.2 = 0 := by
  cases fuel with
  | zero => simp [iterNextLoopF]
  | succ m => simp [iterNextLoopF, Nat.not_lt.mpr hte]

lemma iterNextLoopF_reads_le (h : image_header) (f : FlashArea) (ty : Nat) (prot : Bool)
    (pe te : Nat) : ∀ fuel tlv_off,
    4 * (iterNextLoopF h f ty prot pe te fuel tlv_off).2.2 ≤ (te - tlv_off) + 4 := by
  intro fuel
  induction fuel with
  | zero => intro tlv_off; simp [iterNextLoopF]
  | succ m ih =>
    intro tlv_off
    have hsk := le_tlvSkipInfo h pe tlv_off
    simp only [iterNextLoopF]
    split
    · cases hl : loadPair f (tlvSkipInfo h pe tlv_off) with
      | none => simp only [hl]; omega
      | some tlv =>
        have h4 : tlvHdrSize = 4 := rfl
        simp only [hl]
        split
        · simp only []
          omega
        · split
          · simp only []
            omega
          · by_cases hnext : te ≤ tlvSkipInfo h pe tlv_off + tlvHdrSize + tlv.2
            · have hz := iterNextLoopF_reads_zero h f ty prot pe te m
                (tlvSkipInfo h pe tlv_off + tlvHdrSize + tlv.2) hnext
              simp only [hz]
              omega
            · have := ih (tlvSkipInfo h pe tlv_off + tlvHdrSize + tlv.2)
              simp only []
              omega
    · simp

lemma iterNextLoopF_prot_exhaust (h : image_header) (f : FlashArea) (ty : Nat)
    (pe te fuel tlv_off : Nat) (hpe : pe ≤ tlv_off) :
    ((iterNextLoopF h f ty true pe te fuel tlv_off).1 = NextResult.exhausted ∨
      (iterNextLoopF h f ty true pe te fuel tlv_off).1 = NextResult.error) ∧
    (iterNextLoopF h f ty true pe te fuel tlv_off).2.2 ≤ 1 := by
  have hsk := le_tlvSkipInfo h pe tlv_off
  cases fuel with
  | zero => simp [iterNextLoopF]
  | succ m =>
    simp only [iterNextLoopF]
    split
    · cases hl : loadPair f (tlvSkipInfo h pe tlv_off) with
      | none => simp [hl]
      | some tlv =>
        simp only [hl]
        split
        · simp
        · rename_i hc
          exact absurd ⟨trivial, le_trans hpe hsk⟩ hc
    · simp

lemma iterNextLoopF_fuel_irrel (h : image_header) (f : FlashArea) (ty : Nat) (prot : Bool)
    (pe te : Nat) : ∀ fuel1 fuel2 tlv_off, te - tlv_off < fuel1 → te - tlv_off < fuel2 →
    iterNextLoopF h f ty prot pe te fuel1 tlv_off =
      iterNextLoopF h f ty prot pe te fuel2 tlv_off := by
  intro fuel1
  induction fuel1 with
  | zero => intro fuel2 tlv_off h1 h2; omega
  | succ m ih =>
    intro fuel2 tlv_off h1 h2
    cases fuel2 with
    | zero => omega
    | succ k =>
      simp only [iterNextLoopF]
      split
      · rename_i hlt
        cases hl : loadPair f (tlvSkipInfo h pe tlv_off) with
        | none => simp [hl]
        | some tlv =>
          simp only [hl]
          split
          · rfl
          · split
            · rfl
            · have hsk := le_tlvSkipInfo h pe tlv_off
              have h4 : tlvHdrSize = 4 := rfl
              rw [ih k (tlvSkipInfo h pe tlv_off + tlvHdrSize + tlv.2) (by omega) (by omega)]
      · rfl

lemma begin_success (it0 : image_tlv_iter) (h : image_header) (f : FlashArea)
    (ty : Nat) (pr : Bool) (i : image_tlv_iter)
    (hb : bootutil_tlv_iter_begin (some it0) (some h) (some f) ty pr = (0, some i)) :
    ∃ info : Nat × Nat, beginInfo h f h.boot_tlv_off = some info ∧
      info.1 = IMAGE_TLV_INFO_MAGIC ∧
      i = { hdr := some h, fap := some f, type := ty, prot := pr,
            prot_end := h.boot_tlv_off + h.ih_protect_tlv_size,
            tlv_end := h.boot_tlv_off + h.ih_protect_tlv_size + info.2,
            tlv_off := h.boot_tlv_off + tlvInfoSize } := by
  unfold bootutil_tlv_iter_begin at hb
  cases hbi : beginInfo h f h.boot_tlv_off with
  | none =>
    simp only [hbi] at hb
    have hfst := congrArg Prod.fst hb
    simp only [] at hfst
    exact absurd hfst (by decide)
  | some info =>
    simp only [hbi] at hb
    split at hb
    · have hfst := congrArg Prod.fst hb
      simp only [] at hfst
      exact absurd hfst (by decide)
    · rename_i hmag
      refine ⟨info, rfl, not_ne_iff.mp hmag, ?_⟩
      have h2 := congrArg Prod.snd hb
      exact (Option.some_inj.mp h2).symm

lemma beginInfo_plain_read (h : image_header) (f : FlashArea) (off_ : Nat)
    (info : Nat × Nat) (hbi : beginInfo h f off_ = some info) :
    loadPair f (off_ + h.ih_protect_tlv_size) = some info := by
  unfold beginInfo at hbi
  cases hl : loadPair f off_ with
  | none => rw [hl] at hbi; exact Option.noConfusion hbi
  | some info0 =>
    simp only [hl] at hbi
    split at hbi
    · split at hbi
      · exact Option.noConfusion hbi
      · rename_i hne
        rw [not_ne_iff.mp hne]
        exact hbi
    · split at hbi
      · exact Option.noConfusion hbi
      · rename_i hz
        rw [not_ne_iff.mp hz, Nat.add_zero]
        rw [Option.some_inj.mp hbi] at hl
        exact hl

lemma next_found (i : image_tlv_iter) (o l t : Nat) (oj : Option image_tlv_iter)
    (hn : bootutil_tlv_iter_next (some i) = (NextResult.found o l t, oj)) :
    ∃ (h : image_header) (f : FlashArea) (c : Nat),
      i.hdr = some h ∧ i.fap = some f ∧ i.tlv_off ≤ c ∧
      loadPair f c = some (t, l) ∧ o = c + tlvHdrSize ∧
      oj = some { i with tlv_off := c + tlvHdrSize + l } ∧
      (i.type = IMAGE_TLV_ANY ∨ t = i.type) ∧
      (i.prot = true → c < i.prot_end) := by
  cases hh : i.hdr with
  | none =>
    unfold bootutil_tlv_iter_next at hn
    simp only [hh] at hn
    exact NextResult.noConfusion (congrArg Prod.fst hn)
  | some h =>
    cases hf : i.fap with
    | none =>
      unfold bootutil_tlv_iter_next at hn
      simp only [hh, hf] at hn
      exact NextResult.noConfusion (congrArg Prod.fst hn)
    | some f =>
      unfold bootutil_tlv_iter_next at hn
      simp only [hh, hf] at hn
      have h1 := congrArg Prod.fst hn
      have h2 := congrArg Prod.snd hn
      simp only [] at h1 h2
      have hfull : iterNextLoopF h f i.type i.prot i.prot_end i.tlv_end
          (i.tlv_end - i.tlv_off + 1) i.tlv_off =
          (NextResult.found o l t,
           (iterNextLoop h f i.type i.prot i.prot_end i.tlv_end i.tlv_off).2.1,
           (iterNextLoop h f i.type i.prot i.prot_end i.tlv_end i.tlv_off).2.2) := by
        rw [← h1]
        rfl
      obtain ⟨c, hc1, hc2, hc3, hc4, hc5, hc6⟩ :=
        iterNextLoopF_found h f i.type i.prot i.prot_end i.tlv_end _ _ o l t _ _ hfull
      refine ⟨h, f, c, rfl, rfl, hc1, hc2, hc3, ?_, hc5, hc6⟩
      rw [← h2, hc4]

/-- C10: if initialization returns an error for any reason (null argument,
read failure, magic or protected-size mismatch), no field of the caller's
iterator struct is written: all assignments to the scanner state happen only
after every validation step has succeeded, so a failed begin leaves the
iterator exactly as it was passed in. -/
theorem C10_begin_error_writes_nothing (it0 : image_tlv_iter)
    (hdr : Option image_header) (fap : Option FlashArea) (type : Nat) (prot : Bool)
    (hrc : (bootutil_tlv_iter_begin (some it0) hdr fap type prot).1 ≠ 0) :
    (bootutil_tlv_iter_begin (some it0) hdr fap type prot).2 = some it0 := by
  cases hdr with
  | none => rfl
  | some h =>
    cases fap with
    | none => rfl
    | some f =>
      unfold bootutil_tlv_iter_begin at hrc ⊢
      cases hbi : beginInfo h f h.boot_tlv_off with
      | none => simp [hbi]
      | some info =>
        simp only [hbi] at hrc ⊢
        split at hrc
        · rename_i hcond
          rw [if_pos hcond]
        · exact absurd rfl hrc

/-- C10 witness: a begin call with a NULL header pointer fails and returns
the caller's struct unchanged. -/
theorem C10_witness :
    (bootutil_tlv_iter_begin (some it0c) none (some flashD) 0 false).2 = some it0c :=
  C10_begin_error_writes_nothing it0c none (some flashD) 0 false (by decide)

/-- C9: the membership query on an initialized scanner is a pure function of
the scanner state and the queried offset: it reads nothing from flash (the
result is unchanged under any replacement of the flash accessor) and returns
true (1) iff the offset is strictly below prot_end, false (0) iff not; on an
uninitialized scanner (NULL iterator, header or flash pointer) it fails
with -1. -/
theorem C9_is_prot_spec (i : image_tlv_iter) (h : image_header) (f : FlashArea)
    (off : Nat) (hh : i.hdr = some h) (hf : i.fap = some f) :
    ((bootutil_tlv_iter_is_prot (some i) off = 1 ↔ off < i.prot_end) ∧
     (bootutil_tlv_iter_is_prot (some i) off = 0 ↔ i.prot_end ≤ off) ∧
     (∀ g : FlashArea, bootutil_tlv_iter_is_prot (some { i with fap := some g }) off =
        bootutil_tlv_iter_is_prot (some i) off)) ∧
    bootutil_tlv_iter_is_prot none off = -1 ∧
    (∀ j : image_tlv_iter, j.hdr = none → bootutil_tlv_iter_is_prot (some j) off = -1) ∧
    (∀ j : image_tlv_iter, j.fap = none → bootutil_tlv_iter_is_prot (some j) off = -1) := by
  refine ⟨⟨?_, ?_, ?_⟩, rfl, ?_, ?_⟩
  · unfold bootutil_tlv_iter_is_prot
    simp only [hh, hf]
    split
    · simp only [true_iff]
      assumption
    · constructor
      · intro hcon
        exact absurd hcon (by decide)
      · intro hcon
        omega
  · unfold bootutil_tlv_iter_is_prot
    simp only [hh, hf]
    split
    · constructor
      · intro hcon
        exact absurd hcon (by decide)
      · intro hcon
        omega
    · simp only [true_iff]
      omega
  · intro g
    unfold bootutil_tlv_iter_is_prot
    simp only [hh, hf]
  · intro j hj
    unfold bootutil_tlv_iter_is_prot
    cases hjf : j.fap <;> simp [hj, hjf]
  · intro j hj
    unfold bootutil_tlv_iter_is_prot
    cases hjh : j.hdr <;> simp [hj, hjh]

/-- C9 witness: the specification instantiated on the concrete initialized
scanner of the plain scenario at offset 3 (inside the empty protected area
query: 3 is not below prot_end = 0, so the query answers 0). -/
theorem C9_witness :
    bootutil_tlv_iter_is_prot (some itD) 3 = 0 :=
  ((C9_is_prot_spec itD hdrC flashD 3 rfl rfl).1.2.1).mpr (by decide)

/-- C8: a single scan-advance call terminates after a bounded number of
reads: the scan loop performs at most (tlv_end - tlv_off)/4 + 1
LOAD_IMAGE_DATA calls (each loop iteration reads one 4-byte record header
and, if it continues, advances the cursor by at least 4 bytes), and the call
returns one of Found, Exhausted or Error. -/
theorem C8_advance_bounded (h : image_header) (f : FlashArea) (ty : Nat) (prot : Bool)
    (pe te tlv_off : Nat) (it : Option image_tlv_iter) :
    4 * (iterNextLoop h f ty prot pe te tlv_off).2.2 ≤ (te - tlv_off) + 4 ∧
    ((bootutil_tlv_iter_next it).1 = NextResult.error ∨
     (bootutil_tlv_iter_next it).1 = NextResult.exhausted ∨
     ∃ o l t, (bootutil_tlv_iter_next it).1 = NextResult.found o l t) := by
  constructor
  · exact iterNextLoopF_reads_le h f ty prot pe te _ tlv_off
  · cases hr : (bootutil_tlv_iter_next it).1 with
    | error => exact Or.inl rfl
    | exhausted => exact Or.inr (Or.inl rfl)
    | found o l t => exact Or.inr (Or.inr ⟨o, l, t, rfl⟩)

/-- C5: when initialization succeeds, the stored scanner state satisfies
prot_end = area_start + the header's protected size, tlv_end = prot_end +
the plain info record's total length (the plain info record sits at
area_start + protected size in both accepted trailer shapes), and tlv_off =
area_start + size_of(image_tlv_info). -/
theorem C5_begin_success_state (it0 : image_tlv_iter) (h : image_header)
    (f : FlashArea) (ty : Nat) (pr : Bool) (i : image_tlv_iter)
    (hb : bootutil_tlv_iter_begin (some it0) (some h) (some f) ty pr = (0, some i)) :
    ∃ t2, loadPair f (h.boot_tlv_off + h.ih_protect_tlv_size) =
        some (IMAGE_TLV_INFO_MAGIC, t2) ∧
      i.prot_end = h.boot_tlv_off + h.ih_protect_tlv_size ∧
      i.tlv_end = i.prot_end + t2 ∧
      i.tlv_off = h.boot_tlv_off + tlvInfoSize := by
  obtain ⟨info, hbi, hmag, hi⟩ := begin_success it0 h f ty pr i hb
  have hread := beginInfo_plain_read h f h.boot_tlv_off info hbi
  refine ⟨info.2, ?_, ?_, ?_, ?_⟩
  · rw [← hmag]
    simpa using hread
  · rw [hi]
  · rw [hi]
  · rw [hi]

/-- C5 witness: state equations instantiated on the plain scenario, whose
begin succeeds. -/
theorem C5_witness :
    ∃ t2, loadPair flashD (hdrC.boot_tlv_off + hdrC.ih_protect_tlv_size) =
        some (IMAGE_TLV_INFO_MAGIC, t2) ∧
      itD.prot_end = hdrC.boot_tlv_off + hdrC.ih_protect_tlv_size ∧
      itD.tlv_end = itD.prot_end + t2 ∧
      itD.tlv_off = hdrC.boot_tlv_off + tlvInfoSize :=
  C5_begin_success_state it0c hdrC flashD 1 false itD rfl

/-- C3: when scan-advance finds a record whose type tag matches the filter
(or the filter is the wildcard), it returns Found with payload offset =
(cursor at which the matching header was read) + size_of(image_tlv), payload
length and type taken from that header, and it stores cursor = payload
offset + payload length before returning, so the next call resumes after
the record. -/
theorem C3_found_reports_match (i : image_tlv_iter) (o l t : Nat)
    (oj : Option image_tlv_iter)
    (hn : bootutil_tlv_iter_next (some i) = (NextResult.found o l t, oj)) :
    ∃ (f : FlashArea) (c : Nat), i.fap = some f ∧ i.tlv_off ≤ c ∧
      loadPair f c = some (t, l) ∧ o = c + tlvHdrSize ∧
      (i.type = IMAGE_TLV_ANY ∨ t = i.type) ∧
      oj = some { i with tlv_off := o + l } := by
  obtain ⟨h, f, c, hh, hf, hc1, hc2, hc3, hc4, hc5, hc6⟩ := next_found i o l t oj hn
  refine ⟨f, c, hf, hc1, hc2, hc3, hc5, ?_⟩
  rw [hc4, hc3]

/-- C3 witness: the plain scenario advance returns Found(8, 4, 1), read from
the header at cursor 4, and leaves the cursor at 12. -/
theorem C3_witness :
    ∃ (f : FlashArea) (c : Nat), itD.fap = some f ∧ itD.tlv_off ≤ c ∧
      loadPair f c = some (1, 4) ∧ 8 = c + tlvHdrSize ∧
      (itD.type = IMAGE_TLV_ANY ∨ 1 = itD.type) ∧
      some { itD with tlv_off := 12 } = some { itD with tlv_off := 8 + 4 } :=
  C3_found_reports_match itD 8 4 1 (some { itD with tlv_off := 12 }) rfl

/-- C6 (amended): a successful begin establishes prot_end <= tlv_end, and
every scan-advance call preserves prot_end and tlv_end and never decreases
tlv_off; an error return can leave the cursor advanced by the boundary skip
performed just before the failing read, so the cursor is monotone but not
always literally in place on errors. -/
theorem C6_amended :
    (∀ (it0 : image_tlv_iter) (h : image_header) (f : FlashArea) (ty : Nat)
       (pr : Bool) (i : image_tlv_iter),
       bootutil_tlv_iter_begin (some it0) (some h) (some f) ty pr = (0, some i) →
       i.prot_end ≤ i.tlv_end) ∧
    (∀ (j : image_tlv_iter) (r : NextResult) (oj : Option image_tlv_iter),
       bootutil_tlv_iter_next (some j) = (r, oj) →
       ∃ j2, oj = some j2 ∧ j2.prot_end = j.prot_end ∧ j2.tlv_end = j.tlv_end ∧
         j2.hdr = j.hdr ∧ j2.fap = j.fap ∧ j.tlv_off ≤ j2.tlv_off) := by
  constructor
  · intro it0 h f ty pr i hb
    obtain ⟨info, -, -, hi⟩ := begin_success it0 h f ty pr i hb
    rw [hi]
    simp only []
    omega
  · intro j r oj hn
    unfold bootutil_tlv_iter_next at hn
    cases hh : j.hdr with
    | none =>
      simp only [hh] at hn
      have h2 := congrArg Prod.snd hn
      simp only [] at h2
      exact ⟨j, h2.symm, rfl, rfl, hh, rfl, le_refl _⟩
    | some h =>
      cases hf : j.fap with
      | none =>
        simp only [hh, hf] at hn
        have h2 := congrArg Prod.snd hn
        simp only [] at h2
        exact ⟨j, h2.symm, rfl, rfl, hh, hf, le_refl _⟩
      | some f =>
        simp only [hh, hf] at hn
        have h2 := congrArg Prod.snd hn
        simp only [] at h2
        refine ⟨{ j with tlv_off :=
          (iterNextLoop h f j.type j.prot j.prot_end j.tlv_end j.tlv_off).2.1 },
          ?_, rfl, rfl, hh, hf, ?_⟩
        · rw [hh, hf]
          exact h2.symm
        · exact iterNextLoopF_le_off h f j.type j.prot j.prot_end j.tlv_end _ j.tlv_off

/-- C6 witness: both parts instantiated on the plain scenario: begin yields
prot_end = 0 <= 12 = tlv_end, and one advance keeps the bounds and moves the
cursor forward. -/
theorem C6_amended_witness :
    itD.prot_end ≤ itD.tlv_end ∧
    ∃ j2, some { itD with tlv_off := 12 } = some j2 ∧ j2.prot_end = itD.prot_end ∧
      j2.tlv_end = itD.tlv_end ∧ j2.hdr = itD.hdr ∧ j2.fap = itD.fap ∧
      itD.tlv_off ≤ j2.tlv_off :=
  ⟨C6_amended.1 it0c hdrC flashD 1 false itD rfl,
   C6_amended.2 itD (NextResult.found 8 4 1) (some { itD with tlv_off := 12 }) rfl⟩

/-- C7: for fixed flash content and filter the advance operation is a pure
function of the scanner state, so repeated calls from equal states yield the
identical sequence; the payload offsets of successive Found results are
strictly increasing. -/
theorem C7_found_offsets_increasing (i1 i2 : image_tlv_iter)
    (o1 l1 t1 o2 l2 t2 : Nat) (oj2 : Option image_tlv_iter)
    (h1 : bootutil_tlv_iter_next (some i1) = (NextResult.found o1 l1 t1, some i2))
    (h2 : bootutil_tlv_iter_next (some i2) = (NextResult.found o2 l2 t2, oj2)) :
    o1 < o2 := by
  obtain ⟨ha, fa, c1, -, -, hc1, -, ho1, hoj1, -, -⟩ := next_found i1 o1 l1 t1 (some i2) h1
  obtain ⟨hb, fb, c2, -, -, hc2, -, ho2, -, -, -⟩ := next_found i2 o2 l2 t2 oj2 h2
  have hi2 : i2.tlv_off = c1 + tlvHdrSize + l1 := by
    have := Option.some_inj.mp hoj1
    rw [this]
  have h4 : tlvHdrSize = 4 := rfl
  omega

/-- C7 witness: the two successive Found results of the two-record scenario
have offsets 8 < 12. -/
theorem C7_witness : (8 : Nat) < 12 :=
  C7_found_offsets_increasing itE { itE with tlv_off := 8 } 8 0 7 12 4 7
    (some { itE with tlv_off := 16 }) rfl rfl

/-- C1 counterexample: in the claim's own scenario (protected size 8,
trailer [protected-info(8)][TLV(type 2, len 0)][plain-info(4)], wildcard
filter, require_protected = true) the first advance does return Found for
the zero-length type-2 record, but its payload offset equals prot_end, so
the membership query on that offset returns 0 (false), not true as claimed. -/
theorem C1_counterexample :
    bootutil_tlv_iter_begin (some it0c) (some hdrA) (some flashA) IMAGE_TLV_ANY true
      = (0, some itA) ∧
    (bootutil_tlv_iter_next (some itA)).1 = NextResult.found 8 0 2 ∧
    itA.prot_end = 8 ∧
    bootutil_tlv_iter_is_prot (bootutil_tlv_iter_next (some itA)).2 8 = 0 :=
  ⟨rfl, rfl, rfl, rfl⟩

/-- C1 (amended): under require_protected = true every Found payload offset
o satisfies o < prot_end + size_of(header) (the matching record's header was
read at an offset strictly below prot_end), and the membership query answers
true exactly when o itself is strictly below prot_end — which can fail only
when the payload begins at or past prot_end, as for the zero-length record
ending exactly at the protected boundary in the claim's scenario, where
is_protected returns false. -/
theorem C1_amended (i : image_tlv_iter) (o l t : Nat) (oj : Option image_tlv_iter)
    (hp : i.prot = true)
    (hn : bootutil_tlv_iter_next (some i) = (NextResult.found o l t, oj)) :
    o < i.prot_end + tlvHdrSize ∧
    (bootutil_tlv_iter_is_prot (some i) o = 1 ↔ o < i.prot_end) := by
  obtain ⟨h, f, c, hh, hf, hc1, hc2, hc3, hc4, hc5, hc6⟩ := next_found i o l t oj hn
  have hcp := hc6 hp
  have h4 : tlvHdrSize = 4 := rfl
  constructor
  · omega
  · unfold bootutil_tlv_iter_is_prot
    simp only [hh, hf]
    split
    · simp only [true_iff]
      assumption
    · constructor
      · intro hcon
        exact absurd hcon (by decide)
      · intro hcon
        omega

/-- C1 witness: the amended bound instantiated on the claim's scenario:
the Found offset 8 satisfies 8 < prot_end + 4 = 12, and the membership query
answers 1 iff 8 < prot_end = 8 (it does not, matching the counterexample). -/
theorem C1_amended_witness :
    (8 : Nat) < itA.prot_end + tlvHdrSize ∧
    (bootutil_tlv_iter_is_prot (some itA) 8 = 1 ↔ (8 : Nat) < itA.prot_end) :=
  C1_amended itA 8 0 2 (some { itA with tlv_off := 8 }) rfl rfl

/-- C2 counterexample: an initialized scanner with require_protected = true
whose cursor has reached prot_end: the claim demands Exhausted immediately
with no general-area read, but the code first skips the plain info record,
then reads the general-area header at offset 8; that read fails here, so the
call returns Error, not Exhausted. -/
theorem C2_counterexample :
    bootutil_tlv_iter_begin (some it0c) (some hdrB) (some flashB) IMAGE_TLV_ANY true
      = (0, some itB2) ∧
    itB2.prot = true ∧ itB2.prot_end ≤ itB2.tlv_off ∧ itB2.tlv_off < itB2.tlv_end ∧
    (bootutil_tlv_iter_next (some itB2)).1 = NextResult.error :=
  ⟨rfl, rfl, by decide, by decide, rfl⟩

/-- C2 (amended): once the cursor has reached or passed prot_end under
require_protected = true, scan-advance never returns Found: it performs at
most one header read (whose contents it ignores) and returns Exhausted, or
Error if that single boundary read fails. -/
theorem C2_amended (i : image_tlv_iter) (h : image_header) (f : FlashArea)
    (hh : i.hdr = some h) (hf : i.fap = some f) (hp : i.prot = true)
    (hpe : i.prot_end ≤ i.tlv_off) :
    ((bootutil_tlv_iter_next (some i)).1 = NextResult.exhausted ∨
     (bootutil_tlv_iter_next (some i)).1 = NextResult.error) ∧
    (iterNextLoop h f i.type i.prot i.prot_end i.tlv_end i.tlv_off).2.2 ≤ 1 := by
  have hkey := iterNextLoopF_prot_exhaust h f i.type i.prot_end i.tlv_end
      (i.tlv_end - i.tlv_off + 1) i.tlv_off hpe
  have hres : (bootutil_tlv_iter_next (some i)).1
      = (iterNextLoop h f i.type i.prot i.prot_end i.tlv_end i.tlv_off).1 := by
    unfold bootutil_tlv_iter_next
    simp only [hh, hf]
  constructor
  · rw [hres, hp]
    exact hkey.1
  · rw [hp]
    exact hkey.2

/-- C2 witness: the amended statement instantiated on the counterexample
scenario, where the single boundary read fails and Error is returned after
exactly one read. -/
theorem C2_amended_witness :
    ((bootutil_tlv_iter_next (some itB2)).1 = NextResult.exhausted ∨
     (bootutil_tlv_iter_next (some itB2)).1 = NextResult.error) ∧
    (iterNextLoop hdrB flashB itB2.type itB2.prot itB2.prot_end itB2.tlv_end
      itB2.tlv_off).2.2 ≤ 1 :=
  C2_amended itB2 hdrB flashB rfl rfl rfl (by decide)

/-- C4 counterexample: initialization can fail although none of the three
listed conditions holds.  Flash holds protected-info with total_length 0,
the header declares protected size 0: the first magic is recognized, its
total length equals the declared protected size, and the declared size is
not nonzero — yet begin returns -1, because the second info record (re-read
at area_start + 0) does not carry the plain-info magic. -/
theorem C4_counterexample :
    loadPair flashC hdrC.boot_tlv_off = some (IMAGE_TLV_PROT_INFO_MAGIC, 0) ∧
    hdrC.ih_protect_tlv_size = 0 ∧
    (bootutil_tlv_iter_begin (some it0c) (some hdrC) (some flashC) 0 false).1 = -1 :=
  ⟨rfl, rfl, rfl⟩

/-- C4 (amended): given non-null arguments and both info reads succeeding,
initialization fails exactly when: the first magic is protected-info with a
total length different from the declared protected size; or the first magic
is neither recognized value; or the declared protected size is nonzero and
the first magic is plain-info; or the first magic is protected-info with
matching total length but the second info record, read at area_start + that
total length, does not carry the plain-info magic. -/
theorem C4_amended (it0 : image_tlv_iter) (h : image_header) (f : FlashArea)
    (ty : Nat) (pr : Bool) (m1 t1 m2 t2 : Nat)
    (h1 : loadPair f h.boot_tlv_off = some (m1, t1))
    (h2 : loadPair f (h.boot_tlv_off + t1) = some (m2, t2)) :
    (bootutil_tlv_iter_begin (some it0) (some h) (some f) ty pr).1 = -1 ↔
      ((m1 = IMAGE_TLV_PROT_INFO_MAGIC ∧ h.ih_protect_tlv_size ≠ t1) ∨
       (m1 ≠ IMAGE_TLV_PROT_INFO_MAGIC ∧ m1 ≠ IMAGE_TLV_INFO_MAGIC) ∨
       (h.ih_protect_tlv_size ≠ 0 ∧ m1 = IMAGE_TLV_INFO_MAGIC) ∨
       (m1 = IMAGE_TLV_PROT_INFO_MAGIC ∧ h.ih_protect_tlv_size = t1 ∧
        m2 ≠ IMAGE_TLV_INFO_MAGIC)) := by
  have hmagic : IMAGE_TLV_PROT_INFO_MAGIC ≠ IMAGE_TLV_INFO_MAGIC := by decide
  have hmagic2 : IMAGE_TLV_INFO_MAGIC ≠ IMAGE_TLV_PROT_INFO_MAGIC := by decide
  unfold bootutil_tlv_iter_begin beginInfo
  simp only [h1]
  by_cases hm1 : m1 = IMAGE_TLV_PROT_INFO_MAGIC
  · by_cases hsz : h.ih_protect_tlv_size = t1
    · simp only [hm1, hsz, h2]
      by_cases hm2 : m2 = IMAGE_TLV_INFO_MAGIC
      · simp [hm1, hsz, hm2, hmagic]
      · simp [hm1, hsz, hm2, hmagic]
    · simp only [hm1, hsz]
      simp [hm1, hsz, hmagic]
  · by_cases hz : h.ih_protect_tlv_size = 0
    · by_cases hinfo : m1 = IMAGE_TLV_INFO_MAGIC
      · simp [hm1, hz, hinfo, hmagic2]
      · simp [hm1, hz, hinfo]
    · simp [hm1, hz]
      exact Or.symm (em (m1 = IMAGE_TLV_INFO_MAGIC))

/-- C4 witness: the amended characterization instantiated on a flash whose
first magic is unrecognized, concluding that begin fails. -/
theorem C4_amended_witness :
    (bootutil_tlv_iter_begin (some it0c) (some hdrC) (some flashW) 0 false).1 = -1 :=
  (C4_amended it0c hdrC flashW 0 false 0x1234 5 0 0 rfl rfl).mpr
    (Or.inr (Or.inl ⟨by decide, by decide⟩))

/-- C6 counterexample: an error return that does not leave the cursor in
place.  On the degenerate protected scenario, begin succeeds with cursor 4 =
prot_end; the next call skips the plain info record (cursor becomes 8),
then the read at 8 fails, so the call returns Error with the cursor
advanced from 4 to 8 — monotone, but not unchanged as the claim asserts. -/
theorem C6_counterexample :
    bootutil_tlv_iter_begin (some it0c) (some hdrB) (some flashB) 5 false
      = (0, some itB6) ∧
    itB6.tlv_off = 4 ∧
    (bootutil_tlv_iter_next (some itB6)).1 = NextResult.error ∧
    (bootutil_tlv_iter_next (some itB6)).2 = some { itB6 with tlv_off := 8 } :=
  ⟨rfl, rfl, rfl, rfl⟩
